import Mathlib

/-!
Verification development for the ClipEssence content-repurposing assistant.

The definitions below are a shallow embedding of the application's data model
and handlers:
* the shared type declarations (`types.ts`);
* the intake form and its submission validation (`components/InputStep.tsx`);
* the wizard controller (`App.tsx`), with the external summarization call
  represented by an explicit outcome parameter;
* the visual editor state and its operations (the `ImageGenerationStep`
  component), with the `Math.random` draws represented by explicit parameters;
* the gateway response handling of `services/geminiService.ts`
  (code-fence stripping followed by `JSON.parse`), with strings modelled as
  `List Char` and `JSON.parse` modelled by an executable JSON reader.

The theorems at the end of the file settle the behavioural claims about these
handlers.
-/

namespace ClipEssence

/-! ## Data model (`types.ts`) -/

/-- The wizard steps (`enum AppStep`). -/
inductive AppStep
  | INPUT
  | PROCESSING_TEXT
  | REVIEW_TEXT
  | GENERATING_IMAGES
  | RESULT_EDITOR
deriving DecidableEq

/-- `type InputSourceType = 'VIDEO' | 'IMAGES' | 'SEARCH'`. -/
inductive InputSourceType
  | VIDEO
  | IMAGES
  | SEARCH
deriving DecidableEq

/-- `type SearchPlatform = 'X' | 'YOUTUBE' | 'WEB'`. -/
inductive SearchPlatform
  | X
  | YOUTUBE
  | WEB
deriving DecidableEq

/-- `interface Quote`. -/
structure Quote where
  text : String
  timestamp : String
deriving DecidableEq

/-- `interface ContentSummary`; the optional TS field becomes an `Option`. -/
structure ContentSummary where
  title : String
  coreIdea : String
  keyPoints : List String
  goldenQuotes : List Quote
  searchImageUrls : Option (List String) := none
deriving DecidableEq

/-- `interface VideoMetadata`; optional TS fields become `Option`s. -/
structure VideoMetadata where
  sourceType : InputSourceType
  searchPlatform : Option SearchPlatform := none
  url : Option String := none
  fileUrl : Option String := none
  uploadedImages : Option (List String) := none
  title : String
  thumbnail : Option String := none
  durationStr : Option String := none
  durationSec : Option Nat := none
deriving DecidableEq

/-- `interface TrimRange`; the TS field `end` is spelled `stop` here because
`end` is a Lean keyword. -/
structure TrimRange where
  start : Nat
  stop : Nat
deriving DecidableEq

/-- `enum ImageMode`. -/
inductive ImageMode
  | SUBTITLE_STITCH
  | INFOGRAPHIC
deriving DecidableEq

/-- `interface SearchResultItem`. -/
structure SearchResultItem where
  id : String
  title : String
  snippet : String
  url : String
  source : String
deriving DecidableEq

/-- JavaScript `a || b` on an optional string `a`: the empty string is falsy,
so it falls through to `b`, as does an absent value. -/
def jsOrS : Option String → String → String
  | some v, b => if v = "" then b else v
  | none, b => b

/-- ASCII whitespace, as trimmed by `String.prototype.trim` and matched by
the `\s` class of the clean-up regexes of the gateway module. -/
def isJsWs (c : Char) : Bool :=
  c = ' ' || c = '\t' || c = '\n' || c = '\r' || c = '\x0b' || c = '\x0c'

/-- Leading-whitespace removal. -/
def trimLeft (l : List Char) : List Char :=
  l.dropWhile isJsWs

/-- Trailing-whitespace removal. -/
def trimRight (l : List Char) : List Char :=
  (l.reverse.dropWhile isJsWs).reverse

/-- `String.prototype.trim`, over the character list of the string. -/
def jsTrim (l : List Char) : List Char :=
  trimRight (trimLeft l)

/-! ## Visual editor state (`ImageGenerationStep`) -/

/-- The infographic template catalog
(`type InfographicStyle` in `ImageGenerationStep`). -/
inductive InfographicStyle
  | COVER
  | MEMO
  | CARD
  | MINIMAL
  | NEON
  | GRADIENT
  | POLAROID
  | MAGAZINE
  | PAPER
  | GLASS
  | LITERATURE
deriving DecidableEq

/-- `type FontStyle`. -/
inductive FontStyle
  | SANS
  | SERIF
  | CALLIGRAPHY
  | HAPPY
  | ELEGANT
deriving DecidableEq

/-- `type SeedKey = 'hero' | 'frame1' | ... | 'frame4'`. -/
inductive SeedKey
  | hero
  | frame1
  | frame2
  | frame3
  | frame4
deriving DecidableEq

/-- `const FONT_MAP : Record FontStyle string`. -/
def FONT_MAP : FontStyle → String
  | .SANS => "font-sans-sc"
  | .SERIF => "font-serif-sc"
  | .CALLIGRAPHY => "font-calligraphy"
  | .HAPPY => "font-happy"
  | .ELEGANT => "font-elegant"

/-- One entry of the `elementStyles` record:
`{ fontSize?: number, color?: string, fontFamily?: FontStyle }`.
An element with no entry in the JS record behaves exactly like the empty
object, so the record is modelled as a total map into this type with all
fields `none` by default. -/
structure ElementStyle where
  fontSize : Option Nat := none
  color : Option String := none
  fontFamily : Option FontStyle := none
deriving DecidableEq

/-- The `useState` cells of the `ImageGenerationStep` component. -/
structure EditorState where
  localSummary : ContentSummary
  metadata : VideoMetadata
  hiddenFields : String → Bool
  selectedElementId : Option String
  elementStyles : String → ElementStyle
  activeMode : ImageMode
  infoStyle : InfographicStyle
  activeFont : FontStyle
  textColor : String
  highlightColor : String
  imageSeeds : SeedKey → Nat
  customImages : SeedKey → Option String

/-- The slot-seeding `useEffect` of `ImageGenerationStep`: which initial
custom image each slot receives from the metadata or search summary.
`if (imgs[i])` is a JS truthiness test, so an empty-string entry is skipped. -/
def initialImagesFromMeta (metadata : VideoMetadata) (summary : ContentSummary) :
    SeedKey → Option String :=
  fun k =>
    let truthy : Option String → Option String := fun o =>
      match o with
      | some "" => none
      | o => o
    match metadata.sourceType with
    | .VIDEO =>
        match k, metadata.fileUrl with
        | .hero, some fu =>
            match metadata.thumbnail with
            | some t => some t
            | none => some fu
        | _, _ => none
    | .IMAGES =>
        match metadata.uploadedImages with
        | some imgs =>
            if imgs.length > 0 then
              match k with
              | .hero => truthy imgs[0]?
              | .frame1 => truthy imgs[1]?
              | .frame2 => truthy imgs[2]?
              | .frame3 => truthy imgs[3]?
              | .frame4 => truthy imgs[4]?
            else none
        | none => none
    | .SEARCH =>
        match summary.searchImageUrls with
        | some imgs =>
            if imgs.length > 0 then
              match k with
              | .hero => truthy imgs[0]?
              | .frame1 => truthy imgs[1]?
              | .frame2 => truthy imgs[2]?
              | .frame3 => truthy imgs[3]?
              | .frame4 => none
            else none
        | none => none

/-- The editor state right after mount: the `useState` initialisers of
`ImageGenerationStep` followed by the slot-seeding `useEffect`
(`setCustomImages(prev => ({ ...prev, ...initialImages }))` applied to the
initially empty record). -/
def editorInit (summary : ContentSummary) (metadata : VideoMetadata) : EditorState where
  localSummary := summary
  metadata := metadata
  hiddenFields := fun _ => false
  selectedElementId := none
  elementStyles := fun _ => {}
  activeMode := .INFOGRAPHIC
  infoStyle := .COVER
  activeFont := .SANS
  textColor := "#FFFFFF"
  highlightColor := "#FACC15"
  imageSeeds := fun k =>
    match k with
    | .hero => 0
    | .frame1 => 1
    | .frame2 => 2
    | .frame3 => 3
    | .frame4 => 4
  customImages := fun k =>
    match initialImagesFromMeta metadata summary k with
    | some u => some u
    | none => none

/-- The decimal digits of a number, least significant first; the fuel is an
upper bound on the number and makes the recursion structural. -/
def natDigitsRev (fuel n : Nat) : List Nat :=
  match fuel with
  | 0 => []
  | f + 1 => if n = 0 then [] else n % 10 :: natDigitsRev f (n / 10)

/-- The number a least-significant-first digit list denotes. -/
def ofDigitsRev (l : List Nat) : Nat :=
  match l with
  | [] => 0
  | d :: ds => d + 10 * ofDigitsRev ds

/-- The decimal numeral of a number, as a JS template literal renders it
(`${seed + 200}`); the argument is always positive where this is used. -/
def natLit (n : Nat) : String :=
  if n = 0 then "0" else ((natDigitsRev n n).reverse.map Nat.digitChar).asString

/-- The random-placeholder URL of `getImageUrl`:
`https://picsum.photos/seed/${seed + 200}/800/1000`. -/
def placeholderUrl (seed : Nat) : String :=
  "https://picsum.photos/seed/" ++ natLit (seed + 200) ++ "/800/1000"

/-- `getImageUrl` of `ImageGenerationStep`: an explicit custom image wins,
otherwise the seed-keyed placeholder is used. -/
def getImageUrl (s : EditorState) (k : SeedKey) : String :=
  match s.customImages k with
  | some u => u
  | none => placeholderUrl (s.imageSeeds k)

/-- `refreshImage` of `ImageGenerationStep`. `draw` stands for the
`Math.floor(Math.random() * 5000)` value drawn when no custom image is set. -/
def refreshImage (k : SeedKey) (draw : Nat) (s : EditorState) : EditorState :=
  match s.customImages k with
  | some _ => { s with customImages := Function.update s.customImages k none }
  | none => { s with imageSeeds := Function.update s.imageSeeds k draw }

/-- `shuffleAllImages` of `ImageGenerationStep`: custom images are cleared
only in `IMAGES` source mode, and all five seeds are replaced by fresh
`Math.floor(Math.random() * 5000)` draws, here the explicit `draws`. -/
def shuffleAllImages (draws : SeedKey → Nat) (s : EditorState) : EditorState :=
  let s1 :=
    if s.metadata.sourceType = .IMAGES then
      { s with customImages := fun _ => none }
    else s
  { s1 with imageSeeds := draws }

/-- Deleting a widget or text element
(`onDelete={(id) => setHiddenFields({...hiddenFields, [id]: true})}`). -/
def deleteElement (id : String) (s : EditorState) : EditorState :=
  { s with hiddenFields := Function.update s.hiddenFields id true }

/-- Selecting an element (`setSelectedElementId(path)` on click). -/
def selectElement (id : String) (s : EditorState) : EditorState :=
  { s with selectedElementId := some id }

/-- Clicking outside any element (`setSelectedElementId(null)`). -/
def clearSelection (s : EditorState) : EditorState :=
  { s with selectedElementId := none }

/-- One style property edit, as passed to `updateElementStyle`. -/
inductive StyleProp
  | fontSize (n : Nat)
  | color (c : String)
  | fontFamily (f : FontStyle)

/-- `{...prev[selectedElementId], [prop]: value}`. -/
def applyStyleProp (st : ElementStyle) : StyleProp → ElementStyle
  | .fontSize n => { st with fontSize := some n }
  | .color c => { st with color := some c }
  | .fontFamily f => { st with fontFamily := some f }

/-- `updateElementStyle` of `ImageGenerationStep`: a no-op when no element is
selected, otherwise it rewrites only the selected element's entry. -/
def updateElementStyle (p : StyleProp) (s : EditorState) : EditorState :=
  match s.selectedElementId with
  | none => s
  | some id =>
      { s with
        elementStyles :=
          Function.update s.elementStyles id (applyStyleProp (s.elementStyles id) p) }

/-- A template sidebar button (`onClick={() => setInfoStyle(t)}`): the whole
handler of a template switch. -/
def switchTemplate (t : InfographicStyle) (s : EditorState) : EditorState :=
  { s with infoStyle := t }

/-- `setActiveFont`. -/
def setActiveFont (f : FontStyle) (s : EditorState) : EditorState :=
  { s with activeFont := f }

/-- `setTextColor`. -/
def setTextColor (c : String) (s : EditorState) : EditorState :=
  { s with textColor := c }

/-- `setHighlightColor`. -/
def setHighlightColor (c : String) (s : EditorState) : EditorState :=
  { s with highlightColor := c }

/-- The four control surfaces of the style side panel. -/
inductive PanelEdit
  | fontSizeSlider (n : Nat)
  | fontButton (f : FontStyle)
  | mainColor (c : String)
  | highlightSwatch (c : String)

/-- Whether a panel edit is the highlight-colour swatch; that control is only
rendered when no element is selected. -/
def PanelEdit.isHighlight : PanelEdit → Bool
  | .highlightSwatch _ => true
  | _ => false

/-- The style panel of `ImageGenerationStep`: the font-size slider always
goes through `updateElementStyle` (it is only rendered while an element is
selected, and `updateElementStyle` ignores it otherwise); the font buttons and
main colour swatches route to the selected element's override when one is
selected and to the global config otherwise; the highlight swatches (only
rendered with no selection) set the global highlight colour. -/
def applyPanelEdit (e : PanelEdit) (s : EditorState) : EditorState :=
  match e with
  | .fontSizeSlider n => updateElementStyle (.fontSize n) s
  | .fontButton f =>
      match s.selectedElementId with
      | some _ => updateElementStyle (.fontFamily f) s
      | none => setActiveFont f s
  | .mainColor c =>
      match s.selectedElementId with
      | some _ => updateElementStyle (.color c) s
      | none => setTextColor c s
  | .highlightSwatch c => setHighlightColor c s

/-- A `Restyle(elementId, prop)` operation: selecting the element and issuing
the style edit through `updateElementStyle`. -/
def restyleElement (id : String) (p : StyleProp) (s : EditorState) : EditorState :=
  updateElementStyle p (selectElement id s)

/-- A sequence of restyle operations, all targeting the same element. -/
def applyRestyles (id : String) (ops : List StyleProp) (s : EditorState) : EditorState :=
  ops.foldl (fun st p => restyleElement id p st) s

/-- JS truthiness on an optional number: `0` is falsy
(`customStyle?.fontSize ? ... : ...`). -/
def truthyNat : Option Nat → Option Nat
  | some 0 => none
  | o => o

/-- The visible properties of a rendered `EditableText` block. -/
structure RenderedText where
  text : String
  color : String
  fontClass : String
  fontSizePx : Option Nat
deriving DecidableEq

/-- The render function of `EditableText`: `none` when the element is hidden
(the early `if (isHidden) return null`), otherwise the element's text with the
colour, font class and font size resolved from the per-element override
record, the `colorOverride` prop and the global style config. -/
def renderText (s : EditorState) (path : String) (value : String)
    (colorOverride : Option String) : Option RenderedText :=
  if s.hiddenFields path then none
  else
    let customStyle := s.elementStyles path
    some
      { text := value
        color := jsOrS customStyle.color (jsOrS colorOverride s.textColor)
        fontClass :=
          match customStyle.fontFamily with
          | some f => FONT_MAP f
          | none => FONT_MAP s.activeFont
        fontSizePx := truthyNat customStyle.fontSize }

/-- The render function of `DeletableWidget`: `none` when the widget is hidden
(the early `if (isHidden) return null`), otherwise its content. -/
def renderWidget {α : Type} (s : EditorState) (id : String) (content : α) : Option α :=
  if s.hiddenFields id then none else some content

/-! ## Intake form (`components/InputStep.tsx`) -/

/-- The `useState` cells of `InputStep` that feed `handleSubmit`.
`videoFile` is the name of the chosen file when one is present. -/
structure InputState where
  activeTab : InputSourceType
  videoFile : Option String := none
  videoUrl : Option String := none
  videoContext : String := ""
  imageUrls : List String := []
  imageContext : String := ""
  searchPlatform : SearchPlatform := .X
  searchQuery : String := ""
  searchResults : List SearchResultItem := []
  selectedResultIds : List String := []

/-- The aggregated transcript built from the selected search results:
`[Title: ...]\n[Source: ...]\n[Content: ...]` blocks joined by blank lines. -/
def aggregateSearch (results : List SearchResultItem) (selectedIds : List String) : String :=
  let selectedItems := results.filter (fun r => selectedIds.contains r.id)
  String.intercalate "\n\n"
    (selectedItems.map (fun item =>
      "[Title: " ++ item.title ++ "]\n[Source: " ++ item.source ++ "]\n[Content: "
        ++ item.snippet ++ "]"))

/-- `handleSubmit` of `InputStep`: `none` when the active tab's validation
fails (the early `return alert(...)`), otherwise the `(metadata, trim,
transcript)` triple passed to `onNext`. The JS truthiness tests on
`videoContext` and `imageContext` are empty-string tests. -/
def handleSubmit (inp : InputState) : Option (VideoMetadata × TrimRange × String) :=
  match inp.activeTab with
  | .VIDEO =>
      if inp.videoFile = none ∧ inp.videoContext = "" then none
      else
        some
          ({ sourceType := .VIDEO
             title := jsOrS inp.videoFile "本地视频分析"
             fileUrl := inp.videoUrl
             thumbnail := inp.videoUrl },
           ⟨0, 100⟩,
           if inp.videoContext = "" then
             "（用户未提供文本，请根据视频画面生成通用的视觉描述和摘要）"
           else inp.videoContext)
  | .IMAGES =>
      if inp.imageUrls = [] ∧ inp.imageContext = "" then none
      else
        some
          ({ sourceType := .IMAGES
             title := "图文创作项目"
             uploadedImages := some inp.imageUrls },
           ⟨0, 100⟩,
           inp.imageContext)
  | .SEARCH =>
      if inp.selectedResultIds = [] then none
      else
        some
          ({ sourceType := .SEARCH
             searchPlatform := some inp.searchPlatform
             title := "搜索: " ++ inp.searchQuery },
           ⟨0, 100⟩,
           aggregateSearch inp.searchResults inp.selectedResultIds)

/-- The `disabled` condition of the submit button of `InputStep`:
`activeTab === 'SEARCH' && selectedResultIds.length === 0`. -/
def submitDisabled (inp : InputState) : Bool :=
  decide (inp.activeTab = .SEARCH) && inp.selectedResultIds.isEmpty

/-! ## Wizard controller (`App.tsx`) -/

/-- The `useState` cells of `App`. -/
structure AppState where
  step : AppStep
  metadata : Option VideoMetadata
  trimRange : TrimRange
  summary : Option ContentSummary
deriving DecidableEq

/-- The initial `App` state. -/
def initialAppState : AppState :=
  { step := .INPUT, metadata := none, trimRange := ⟨0, 100⟩, summary := none }

/-- The result of the awaited `generateContentSummary` call, treated as the
spec treats the gateway: a structured summary, or a thrown failure. -/
inductive GatewayOutcome
  | ok (summary : ContentSummary)
  | failure

/-- Observable side effects of one run of `handleInputComplete`: whether
`alert` fired and whether the gateway call was reached. -/
structure HandlerOutput where
  alerted : Bool
  gatewayCalled : Bool
deriving DecidableEq

/-- `handleInputComplete` of `App`, run to completion: the metadata, trim
range and `PROCESSING_TEXT` step are stored first; an empty (after `trim`)
transcript throws `"No content provided"` before the gateway is called; the
`catch` branch alerts and returns to `INPUT` without touching the stored
summary; on success the summary is stored and the step becomes
`REVIEW_TEXT`. -/
def handleInputComplete (meta : VideoMetadata) (trim : TrimRange) (transcript : String)
    (outcome : GatewayOutcome) (s : AppState) : AppState × HandlerOutput :=
  let s1 : AppState :=
    { s with metadata := some meta, trimRange := trim, step := .PROCESSING_TEXT }
  if jsTrim transcript.toList = [] then
    ({ s1 with step := .INPUT }, { alerted := true, gatewayCalled := false })
  else
    match outcome with
    | .ok sum =>
        ({ s1 with summary := some sum, step := .REVIEW_TEXT },
         { alerted := false, gatewayCalled := true })
    | .failure =>
        ({ s1 with step := .INPUT }, { alerted := true, gatewayCalled := true })

/-- The submit button of `InputStep` wired to `App`: a failed validation
alerts and leaves the wizard state untouched; otherwise `onNext` runs
`handleInputComplete` with the produced triple. -/
def inputStepSubmit (inp : InputState) (outcome : GatewayOutcome) (s : AppState) :
    AppState × HandlerOutput :=
  match handleSubmit inp with
  | none => (s, { alerted := true, gatewayCalled := false })
  | some (m, t, tr) => handleInputComplete m t tr outcome s

/-- `handleTextReviewComplete` of `App`. -/
def handleTextReviewComplete (updated : ContentSummary) (s : AppState) : AppState :=
  { s with summary := some updated, step := .GENERATING_IMAGES }

/-- The `setTimeout` body that ends the `GENERATING_IMAGES` interlude. -/
def generatingTimeout (s : AppState) : AppState :=
  { s with step := .RESULT_EDITOR }

/-- `handleRestart` of `App`. -/
def handleRestart (s : AppState) : AppState :=
  { s with step := .INPUT, metadata := none, summary := none }

/-- The back action of the review step (`onBack={() => setStep(AppStep.INPUT)}`). -/
def reviewBack (s : AppState) : AppState :=
  { s with step := .INPUT }

/-- The back action of the result editor
(`onBack={() => setStep(AppStep.REVIEW_TEXT)}`). -/
def editorBack (s : AppState) : AppState :=
  { s with step := .REVIEW_TEXT }

/-- One user-driven transition of the wizard controller. Each handler can
only fire from the step whose UI exposes it (`App`'s render tree only mounts
`InputStep` at `INPUT`, `TextReviewStep` at `REVIEW_TEXT`, and
`ImageGenerationStep` at `RESULT_EDITOR`; the `GENERATING_IMAGES` loader
exposes no action but its timeout). A submission is taken atomically through
the transient `PROCESSING_TEXT` loader, which exposes no action either. -/
inductive AppTransition : AppState → AppState → Prop
  | submit (meta : VideoMetadata) (trim : TrimRange) (transcript : String)
      (outcome : GatewayOutcome) {s : AppState} :
      s.step = .INPUT →
      AppTransition s (handleInputComplete meta trim transcript outcome s).1
  | reviewConfirm (updated : ContentSummary) {s : AppState} :
      s.step = .REVIEW_TEXT → AppTransition s (handleTextReviewComplete updated s)
  | reviewGoBack {s : AppState} :
      s.step = .REVIEW_TEXT → AppTransition s (reviewBack s)
  | generatingDone {s : AppState} :
      s.step = .GENERATING_IMAGES → AppTransition s (generatingTimeout s)
  | editorRestart {s : AppState} :
      s.step = .RESULT_EDITOR → AppTransition s (handleRestart s)
  | editorGoBack {s : AppState} :
      s.step = .RESULT_EDITOR → AppTransition s (editorBack s)

/-- The states the wizard controller can reach from its initial state. -/
inductive Reachable : AppState → Prop
  | init : Reachable initialAppState
  | step {s t : AppState} : Reachable s → AppTransition s t → Reachable t

/-- The upstream-data invariant: past intake, the summary is stored, and the
metadata is stored as well. -/
def UpstreamInv (s : AppState) : Prop :=
  (s.step = .REVIEW_TEXT ∨ s.step = .GENERATING_IMAGES ∨ s.step = .RESULT_EDITOR) →
    s.summary ≠ none ∧ s.metadata ≠ none

/-! ## Gateway response handling (`services/geminiService.ts`)

The response text is modelled as a `List Char`. `String.prototype.trim` and
the `\s` class of the clean-up regexes are modelled over the ASCII whitespace
characters. `JSON.parse` is modelled by an executable reader of the JSON
grammar; numeric values are kept as their source lexeme, since no claim
depends on numeric identity. -/

/-- `replace(/\s*```$/, "")`: when the text ends in a triple backtick, that
fence and the whitespace run before it are removed; otherwise the regex does
not match and the text is unchanged. -/
def stripTrailingFence (l : List Char) : List Char :=
  match l.reverse with
  | '`' :: '`' :: '`' :: rest => (rest.dropWhile isJsWs).reverse
  | _ => l

/-- The clean-up of `generateContentSummary` (lines 134-141): trim, then if
the text starts with ```` ```json ```` drop that prefix with the following
whitespace and a trailing fence; else if it starts with ```` ``` ```` do the
same with the three-character prefix; else leave the text as is. -/
def stripFence (s : List Char) : List Char :=
  let t := jsTrim s
  if ("```json".toList).isPrefixOf t then
    stripTrailingFence ((t.drop 7).dropWhile isJsWs)
  else if ("```".toList).isPrefixOf t then
    stripTrailingFence ((t.drop 3).dropWhile isJsWs)
  else t

/-- A JSON value as `JSON.parse` produces it; numbers are kept as their
lexeme. -/
inductive JsonVal
  | null
  | bool (b : Bool)
  | num (lexeme : List Char)
  | str (s : List Char)
  | arr (xs : List JsonVal)
  | obj (kvs : List (List Char × JsonVal))

/-- JSON whitespace (the four characters the JSON grammar allows between
tokens). -/
def isJsonWs (c : Char) : Bool :=
  c = ' ' || c = '\t' || c = '\n' || c = '\r'

/-- Skip JSON whitespace. -/
def skipJWs (l : List Char) : List Char :=
  l.dropWhile isJsonWs

/-- The value of a hexadecimal digit. -/
def hexVal (c : Char) : Option Nat :=
  if '0' ≤ c ∧ c ≤ '9' then some (c.toNat - '0'.toNat)
  else if 'a' ≤ c ∧ c ≤ 'f' then some (c.toNat - 'a'.toNat + 10)
  else if 'A' ≤ c ∧ c ≤ 'F' then some (c.toNat - 'A'.toNat + 10)
  else none

/-- The single-character JSON string escapes. -/
def escChar (c : Char) : Option Char :=
  match c with
  | '"' => some '"'
  | '\\' => some '\\'
  | '/' => some '/'
  | 'b' => some (Char.ofNat 8)
  | 'f' => some (Char.ofNat 12)
  | 'n' => some '\n'
  | 'r' => some '\r'
  | 't' => some '\t'
  | _ => none

/-- The body of a JSON string after the opening quote: the decoded characters
and the rest of the input after the closing quote. Raw control characters are
rejected, as `JSON.parse` rejects them. -/
def parseStringBody : List Char → Option (List Char × List Char)
  | [] => none
  | '"' :: r => some ([], r)
  | '\\' :: 'u' :: h1 :: h2 :: h3 :: h4 :: r =>
      match hexVal h1, hexVal h2, hexVal h3, hexVal h4 with
      | some a, some b, some c, some d =>
          (parseStringBody r).map
            (fun p => (Char.ofNat (((a * 16 + b) * 16 + c) * 16 + d) :: p.1, p.2))
      | _, _, _, _ => none
  | '\\' :: e :: r =>
      match escChar e with
      | some c => (parseStringBody r).map (fun p => (c :: p.1, p.2))
      | none => none
  | c :: r =>
      if c.toNat < 32 then none
      else (parseStringBody r).map (fun p => (c :: p.1, p.2))

/-- ASCII decimal digit test. -/
def isDigitCh (c : Char) : Bool :=
  '0' ≤ c && c ≤ '9'

/-- A JSON number token (sign, integer part without leading zeros, optional
fraction, optional exponent), returned as its lexeme. -/
def parseNumber (l : List Char) : Option (JsonVal × List Char) :=
  let signAndRest : List Char × List Char :=
    match l with
    | '-' :: r => (['-'], r)
    | _ => ([], l)
  let sign := signAndRest.1
  let l1 := signAndRest.2
  let intAndRest : Option (List Char × List Char) :=
    match l1 with
    | '0' :: r => some (['0'], r)
    | c :: r =>
        if '1' ≤ c ∧ c ≤ '9' then
          some (c :: r.takeWhile isDigitCh, r.dropWhile isDigitCh)
        else none
    | [] => none
  match intAndRest with
  | none => none
  | some (ip, l2) =>
      let fracAndRest : Option (List Char × List Char) :=
        match l2 with
        | '.' :: r =>
            if (r.takeWhile isDigitCh) = [] then none
            else some ('.' :: r.takeWhile isDigitCh, r.dropWhile isDigitCh)
        | _ => some ([], l2)
      match fracAndRest with
      | none => none
      | some (fp, l3) =>
          let expAndRest : Option (List Char × List Char) :=
            match l3 with
            | e :: r =>
                if e = 'e' ∨ e = 'E' then
                  let signedRest : List Char × List Char :=
                    match r with
                    | '+' :: r2 => (['+'], r2)
                    | '-' :: r2 => (['-'], r2)
                    | _ => ([], r)
                  if (signedRest.2.takeWhile isDigitCh) = [] then none
                  else
                    some (e :: signedRest.1 ++ signedRest.2.takeWhile isDigitCh,
                      signedRest.2.dropWhile isDigitCh)
                else some ([], l3)
            | [] => some ([], l3)
          match expAndRest with
          | none => none
          | some (ep, l4) => some (.num (sign ++ ip ++ fp ++ ep), l4)

mutual

/-- A JSON value, fuel-indexed; the fuel bounds the nesting/step count. -/
def parseValue : Nat → List Char → Option (JsonVal × List Char)
  | 0, _ => none
  | fuel + 1, l =>
      match skipJWs l with
      | 'n' :: 'u' :: 'l' :: 'l' :: r => some (.null, r)
      | 't' :: 'r' :: 'u' :: 'e' :: r => some (.bool true, r)
      | 'f' :: 'a' :: 'l' :: 's' :: 'e' :: r => some (.bool false, r)
      | '"' :: r => (parseStringBody r).map (fun p => (.str p.1, p.2))
      | '[' :: r =>
          (match skipJWs r with
           | ']' :: r2 => some (.arr [], r2)
           | _ => (parseItems fuel r).map (fun p => (.arr p.1, p.2)))
      | '{' :: r =>
          (match skipJWs r with
           | '}' :: r2 => some (.obj [], r2)
           | _ => (parseMembers fuel r).map (fun p => (.obj p.1, p.2)))
      | rest => parseNumber rest

/-- The comma-separated items of a non-empty JSON array, up to and including
the closing bracket. -/
def parseItems : Nat → List Char → Option (List JsonVal × List Char)
  | 0, _ => none
  | fuel + 1, l =>
      match parseValue fuel l with
      | none => none
      | some (v, r) =>
          match skipJWs r with
          | ',' :: r2 => (parseItems fuel r2).map (fun p => (v :: p.1, p.2))
          | ']' :: r2 => some ([v], r2)
          | _ => none

/-- The comma-separated members of a non-empty JSON object, up to and
including the closing brace. -/
def parseMembers : Nat → List Char → Option (List (List Char × JsonVal) × List Char)
  | 0, _ => none
  | fuel + 1, l =>
      match skipJWs l with
      | '"' :: r =>
          match parseStringBody r with
          | none => none
          | some (k, r1) =>
              match skipJWs r1 with
              | ':' :: r2 =>
                  match parseValue fuel r2 with
                  | none => none
                  | some (v, r3) =>
                      match skipJWs r3 with
                      | ',' :: r4 =>
                          (parseMembers fuel r4).map (fun p => ((k, v) :: p.1, p.2))
                      | '}' :: r4 => some ([(k, v)], r4)
                      | _ => none
              | _ => none
      | _ => none

end

/-- `JSON.parse`: one JSON value followed by nothing but whitespace;
otherwise a `SyntaxError`, modelled as `none`. -/
def jsonParse (l : List Char) : Option JsonVal :=
  match parseValue (l.length + 2) l with
  | some (v, rest) => if skipJWs rest = [] then some v else none
  | none => none

/-- The two ways `generateContentSummary` throws on the response path:
a missing/empty `response.text`, or a `JSON.parse` syntax error. -/
inductive GatewayError
  | emptyResponse
  | parseFailure
deriving DecidableEq

/-- The response handling of `generateContentSummary` (lines 133-145): a
falsy `response.text` throws `"Empty response from Gemini"`; otherwise the
text is trimmed, incidental code fences are stripped, and the remainder goes
through `JSON.parse`, whose value is returned as the summary without any
shape validation (`as ContentSummary` is a static cast). -/
def handleResponse (text : Option (List Char)) : Except GatewayError JsonVal :=
  match text with
  | none => .error .emptyResponse
  | some t =>
      if t = [] then .error .emptyResponse
      else
        match jsonParse (stripFence t) with
        | some v => .ok v
        | none => .error .parseFailure

/-- Last-occurrence key lookup in a parsed JSON object, as reading a property
of the object `JSON.parse` builds does (later duplicate keys overwrite
earlier ones). -/
def lookupLast (kvs : List (List Char × JsonVal)) (k : List Char) : Option JsonVal :=
  match kvs with
  | [] => none
  | (k1, v) :: rest =>
      match lookupLast rest k with
      | some v2 => some v2
      | none => if k1 = k then some v else none

/-- Whether a JSON value is a string. -/
def isStrVal : JsonVal → Bool
  | .str _ => true
  | _ => false

/-- Whether a JSON value is an array of strings. -/
def isStrArr : JsonVal → Bool
  | .arr xs => xs.all isStrVal
  | _ => false

/-- Whether a JSON value has the shape of a `Quote` record of `types.ts`. -/
def isQuoteVal : JsonVal → Bool
  | .obj kvs =>
      (match lookupLast kvs ("text".toList) with
       | some v => isStrVal v
       | none => false)
      && (match lookupLast kvs ("timestamp".toList) with
          | some v => isStrVal v
          | none => false)
  | _ => false

/-- Whether a JSON value has the shape of the `ContentSummary` interface of
`types.ts`: the four required fields with their types, and the optional
`searchImageUrls` a string array when present. -/
def isSummaryShape : JsonVal → Bool
  | .obj kvs =>
      (match lookupLast kvs ("title".toList) with
       | some v => isStrVal v
       | none => false)
      && (match lookupLast kvs ("coreIdea".toList) with
          | some v => isStrVal v
          | none => false)
      && (match lookupLast kvs ("keyPoints".toList) with
          | some v => isStrArr v
          | none => false)
      && (match lookupLast kvs ("goldenQuotes".toList) with
          | some v =>
              match v with
              | .arr qs => qs.all isQuoteVal
              | _ => false
          | none => false)
      && (match lookupLast kvs ("searchImageUrls".toList) with
          | some v => isStrArr v
          | none => true)
  | _ => false

/-- A response text wrapped in the ```` ```json ```` fence the model
sometimes emits. -/
def mkFenced (j : List Char) : List Char :=
  "```json\n".toList ++ j ++ "\n```".toList

/-! ## Concrete demonstration values -/

/-- A concrete summary, as the gateway returns after a successful call. -/
def demoSummary : ContentSummary :=
  { title := "T"
    coreIdea := "C"
    keyPoints := ["k1", "k2", "k3"]
    goldenQuotes := [{ text := "q1", timestamp := "00:10" }] }

/-- A concrete `VIDEO` source descriptor with no uploaded file. -/
def demoMeta : VideoMetadata :=
  { sourceType := .VIDEO, title := "demo" }

/-- A concrete `IMAGES` source descriptor with two uploaded images. -/
def demoMetaImages : VideoMetadata :=
  { sourceType := .IMAGES, title := "demo-images", uploadedImages := some ["imgA", "imgB"] }

/-- The editor freshly mounted on `demoSummary` and `demoMeta`. -/
def demoEditor : EditorState :=
  editorInit demoSummary demoMeta

/-- The editor freshly mounted on `demoSummary` and `demoMetaImages`; slot
`hero` starts with the uploaded override `imgA`. -/
def demoEditorImages : EditorState :=
  editorInit demoSummary demoMetaImages

/-- The wizard state after a successful first submission. -/
def reviewState : AppState :=
  (handleInputComplete demoMeta ⟨0, 100⟩ "hello" (.ok demoSummary) initialAppState).1

/-- The wizard back at intake after the review-step back action; the stored
summary survives this path. -/
def backAtIntakeState : AppState :=
  reviewBack reviewState

/-- The wizard state after a second submission whose gateway call throws,
issued from `backAtIntakeState`. -/
def failedResubmitState : AppState :=
  (handleInputComplete demoMeta ⟨0, 100⟩ "again" .failure backAtIntakeState).1

/-! ## Helper lemmas: decimal numerals -/

theorem ofDigitsRev_natDigitsRev : ∀ fuel n, n ≤ fuel → ofDigitsRev (natDigitsRev fuel n) = n := by
  intro fuel
  induction fuel with
  | zero =>
      intro n hn
      simp only [natDigitsRev, ofDigitsRev]
      omega
  | succ f ih =>
      intro n hn
      by_cases h0 : n = 0
      · subst h0; simp [natDigitsRev, ofDigitsRev]
      · simp only [natDigitsRev, h0, if_false, ofDigitsRev]
        have hdiv : n / 10 ≤ f := by
          have h1 : n / 10 < n := Nat.div_lt_self (Nat.pos_of_ne_zero h0) (by omega)
          omega
        rw [ih _ hdiv]
        exact Nat.mod_add_div n 10

theorem natDigitsRev_lt_ten : ∀ fuel n d, d ∈ natDigitsRev fuel n → d < 10 := by
  intro fuel
  induction fuel with
  | zero => intro n d hd; simp [natDigitsRev] at hd
  | succ f ih =>
      intro n d hd
      by_cases h0 : n = 0
      · simp [natDigitsRev, h0] at hd
      · simp only [natDigitsRev, h0, if_false, List.mem_cons] at hd
        rcases hd with rfl | hd
        · exact Nat.mod_lt _ (by omega)
        · exact ih _ _ hd

/-- Decoder used to invert `Nat.digitChar` on decimal digits. -/
def charToDigit (c : Char) : Nat :=
  c.toNat - 48

theorem charToDigit_digitChar {d : Nat} (hd : d < 10) :
    charToDigit (Nat.digitChar d) = d := by
  interval_cases d <;> rfl

theorem natLit_inj {a b : Nat} (ha : a ≠ 0) (hb : b ≠ 0) (h : natLit a = natLit b) :
    a = b := by
  unfold natLit at h
  rw [if_neg ha, if_neg hb, List.asString_inj] at h
  have h2 := congrArg (List.map charToDigit) h
  rw [List.map_map, List.map_map] at h2
  have e1 : ∀ n : Nat,
      ((natDigitsRev n n).reverse).map (charToDigit ∘ Nat.digitChar)
        = (natDigitsRev n n).reverse := by
    intro n
    have hp : ∀ d ∈ (natDigitsRev n n).reverse, (charToDigit ∘ Nat.digitChar) d = id d := by
      intro d hd
      have hlt : d < 10 := natDigitsRev_lt_ten n n d (List.mem_reverse.mp hd)
      simp [Function.comp, charToDigit_digitChar hlt]
    rw [List.map_congr_left hp, List.map_id]
  rw [e1, e1] at h2
  have h3 := congrArg List.reverse h2
  rw [List.reverse_reverse, List.reverse_reverse] at h3
  have h4 := congrArg ofDigitsRev h3
  rw [ofDigitsRev_natDigitsRev a a le_rfl, ofDigitsRev_natDigitsRev b b le_rfl] at h4
  exact h4

theorem placeholderUrl_inj {a b : Nat} (h : placeholderUrl a = placeholderUrl b) :
    a = b := by
  unfold placeholderUrl at h
  have h1 := congrArg String.data h
  rw [String.data_append, String.data_append, String.data_append, String.data_append] at h1
  have h2 := List.append_cancel_left (List.append_cancel_right h1)
  have h3 : natLit (a + 200) = natLit (b + 200) := by
    cases hna : natLit (a + 200) with
    | mk da =>
        cases hnb : natLit (b + 200) with
        | mk db =>
            rw [hna, hnb] at h2
            simp only at h2
            rw [h2]
  have h4 := natLit_inj (by omega) (by omega) h3
  omega

/-! ## Helper lemmas: whitespace and fences -/

theorem trimLeft_cons_of_neg {c : Char} (h : isJsWs c = false) (l : List Char) :
    trimLeft (c :: l) = c :: l := by
  simp [trimLeft, List.dropWhile_cons, h]

theorem trimRight_concat_of_neg {c : Char} (h : isJsWs c = false) (l : List Char) :
    trimRight (l ++ [c]) = l ++ [c] := by
  simp [trimRight, List.dropWhile_cons, h]

theorem head_not_ws_of_trimLeft_eq {c : Char} {l : List Char}
    (h : trimLeft (c :: l) = c :: l) : isJsWs c = false := by
  by_contra hc
  rw [Bool.not_eq_false] at hc
  rw [trimLeft, List.dropWhile_cons, if_pos hc] at h
  have hle : (List.dropWhile isJsWs l).length ≤ l.length :=
    (List.dropWhile_sublist isJsWs).length_le
  have hlen := congrArg List.length h
  simp only [List.length_cons] at hlen
  omega

theorem dropWhile_reverse_of_trimRight {l : List Char} (h : trimRight l = l) :
    List.dropWhile isJsWs l.reverse = l.reverse := by
  have h2 := congrArg List.reverse h
  rw [trimRight, List.reverse_reverse] at h2
  exact h2

theorem isPrefixOf_append_self (l r : List Char) : l.isPrefixOf (l ++ r) = true := by
  induction l with
  | nil => simp [ List.isPrefixOf]
  | cons a as ih => simp [List.isPrefixOf, List.cons_append, ih]

theorem isPrefixOf_of_append_isPrefixOf {a b l : List Char}
    (h : (a ++ b).isPrefixOf l = true) : a.isPrefixOf l = true := by
  induction a generalizing l with
  | nil => simp [ List.isPrefixOf]
  | cons x xs ih =>
      cases l with
      | nil => simp [List.cons_append, List.isPrefixOf] at h
      | cons y ys =>
          simp only [List.cons_append, List.isPrefixOf, Bool.and_eq_true] at h ⊢
          exact ⟨h.1, ih h.2⟩

theorem mkFenced_eq (j : List Char) :
    mkFenced j
      = '`' :: '`' :: '`' :: 'j' :: 's' :: 'o' :: 'n' :: '\n' :: (j ++ ['\n', '`', '`', '`']) := by
  rw [mkFenced, List.append_assoc]
  rfl

theorem stripFence_mkFenced (j : List Char) (hL : trimLeft j = j) (hR : trimRight j = j)
    (hne : j ≠ []) : stripFence (mkFenced j) = j := by
  obtain ⟨c, j2, rfl⟩ : ∃ c j2, j = c :: j2 := by
    cases j with
    | nil => exact absurd rfl hne
    | cons c j2 => exact ⟨c, j2, rfl⟩
  have hc : isJsWs c = false := head_not_ws_of_trimLeft_eq hL
  have h1 : jsTrim (mkFenced (c :: j2)) = mkFenced (c :: j2) := by
    rw [jsTrim]
    have hA : trimLeft (mkFenced (c :: j2)) = mkFenced (c :: j2) := by
      rw [mkFenced_eq]
      exact trimLeft_cons_of_neg (by decide) _
    rw [hA]
    have hsplit : mkFenced (c :: j2)
        = ("```json\n".toList ++ (c :: j2) ++ ['\n', '`', '`']) ++ ['`'] := by
      simp [mkFenced, List.append_assoc]
    rw [hsplit, trimRight_concat_of_neg (by decide)]
  have h2 : ("```json".toList).isPrefixOf (mkFenced (c :: j2)) = true := by
    have hsplit : mkFenced (c :: j2)
        = "```json".toList ++ ('\n' :: ((c :: j2) ++ ['\n', '`', '`', '`'])) := by
      rw [mkFenced_eq]
      rfl
    rw [hsplit]
    exact isPrefixOf_append_self _ _
  have h3 : (mkFenced (c :: j2)).drop 7 = '\n' :: ((c :: j2) ++ ['\n', '`', '`', '`']) := by
    rw [mkFenced_eq]
    rfl
  have h4 : List.dropWhile isJsWs ('\n' :: ((c :: j2) ++ ['\n', '`', '`', '`']))
      = (c :: j2) ++ ['\n', '`', '`', '`'] := by
    rw [List.dropWhile_cons]
    simp only [List.cons_append, List.dropWhile_cons, hc]
    simp [isJsWs]
  have h5 : stripTrailingFence ((c :: j2) ++ ['\n', '`', '`', '`']) = c :: j2 := by
    rw [stripTrailingFence]
    have hrev : ((c :: j2) ++ ['\n', '`', '`', '`']).reverse
        = '`' :: '`' :: '`' :: '\n' :: (c :: j2).reverse := by
      rw [List.reverse_append]
      rfl
    rw [hrev]
    have h6 : List.dropWhile isJsWs ('\n' :: (c :: j2).reverse)
        = (c :: j2).reverse := by
      rw [List.dropWhile_cons]
      simp only [show isJsWs '\n' = true from rfl, if_true]
      exact dropWhile_reverse_of_trimRight hR
    simp only [h6, List.reverse_reverse]
  rw [stripFence]
  simp only [h1, h2, if_true, h3, h4, h5]

theorem stripFence_unfenced (j : List Char) (hL : trimLeft j = j) (hR : trimRight j = j)
    (hpre : ("```".toList).isPrefixOf j = false) : stripFence j = j := by
  have ht : jsTrim j = j := by rw [jsTrim, hL, hR]
  have h7 : ("```json".toList).isPrefixOf j = false := by
    by_contra h
    rw [Bool.not_eq_false] at h
    have hsplit : ("```json".toList) = "```".toList ++ "json".toList := rfl
    rw [hsplit] at h
    exact absurd (isPrefixOf_of_append_isPrefixOf h) (by rw [hpre]; exact Bool.false_ne_true)
  rw [stripFence]
  simp only [ht, h7, hpre, Bool.false_eq_true, if_false]

/-! ## Helper lemmas: editor operations -/

theorem applyRestyles_cons (id : String) (p : StyleProp) (ps : List StyleProp)
    (s : EditorState) :
    applyRestyles id (p :: ps) s = applyRestyles id ps (restyleElement id p s) := rfl

theorem restyleElement_proj (id : String) (p : StyleProp) (s : EditorState) :
    (restyleElement id p s).hiddenFields = s.hiddenFields
      ∧ (restyleElement id p s).textColor = s.textColor
      ∧ (restyleElement id p s).activeFont = s.activeFont
      ∧ (restyleElement id p s).imageSeeds = s.imageSeeds
      ∧ (restyleElement id p s).customImages = s.customImages := by
  exact ⟨rfl, rfl, rfl, rfl, rfl⟩

theorem restyleElement_elementStyles_ne {e id : String} (hne : e ≠ id)
    (p : StyleProp) (s : EditorState) :
    (restyleElement id p s).elementStyles e = s.elementStyles e :=
  Function.update_noteq hne _ _

theorem applyRestyles_proj (id : String) (ops : List StyleProp) :
    ∀ s : EditorState,
      (applyRestyles id ops s).hiddenFields = s.hiddenFields
        ∧ (applyRestyles id ops s).textColor = s.textColor
        ∧ (applyRestyles id ops s).activeFont = s.activeFont
        ∧ (applyRestyles id ops s).imageSeeds = s.imageSeeds
        ∧ (applyRestyles id ops s).customImages = s.customImages := by
  induction ops with
  | nil => intro s; exact ⟨rfl, rfl, rfl, rfl, rfl⟩
  | cons p ps ih =>
      intro s
      rw [applyRestyles_cons]
      obtain ⟨i1, i2, i3, i4, i5⟩ := ih (restyleElement id p s)
      obtain ⟨r1, r2, r3, r4, r5⟩ := restyleElement_proj id p s
      exact ⟨i1.trans r1, i2.trans r2, i3.trans r3, i4.trans r4, i5.trans r5⟩

theorem applyRestyles_elementStyles_ne {e id : String} (hne : e ≠ id)
    (ops : List StyleProp) :
    ∀ s : EditorState, (applyRestyles id ops s).elementStyles e = s.elementStyles e := by
  induction ops with
  | nil => intro s; rfl
  | cons p ps ih =>
      intro s
      rw [applyRestyles_cons]
      exact (ih (restyleElement id p s)).trans (restyleElement_elementStyles_ne hne p s)

/-! ## Helper lemmas: wizard reachability -/

theorem upstream_of_reachable {s : AppState} (h : Reachable s) : UpstreamInv s := by
  induction h with
  | init =>
      intro hstep
      rcases hstep with h | h | h <;> simp [initialAppState] at h
  | step hr ht ih =>
      cases ht with
      | submit meta trim transcript outcome hstep =>
          simp only [handleInputComplete]
          by_cases htr : jsTrim transcript.toList = []
          · rw [if_pos htr]
            intro hbad
            rcases hbad with h | h | h <;> simp at h
          · rw [if_neg htr]
            cases outcome with
            | ok sum =>
                intro _
                exact ⟨by simp, by simp⟩
            | failure =>
                intro hbad
                rcases hbad with h | h | h <;> simp at h
      | reviewConfirm updated hstep =>
          intro _
          have hprev := ih (Or.inl hstep)
          exact ⟨by simp [handleTextReviewComplete], by simpa [handleTextReviewComplete] using hprev.2⟩
      | reviewGoBack hstep =>
          intro hbad
          rcases hbad with h | h | h <;> simp [reviewBack] at h
      | generatingDone hstep =>
          intro _
          have hprev := ih (Or.inr (Or.inl hstep))
          exact ⟨by simpa [generatingTimeout] using hprev.1,
            by simpa [generatingTimeout] using hprev.2⟩
      | editorRestart hstep =>
          intro hbad
          rcases hbad with h | h | h <;> simp [handleRestart] at h
      | editorGoBack hstep =>
          intro _
          have hprev := ih (Or.inr (Or.inr hstep))
          exact ⟨by simpa [editorBack] using hprev.1, by simpa [editorBack] using hprev.2⟩

/-! ## Claim theorems -/

/-- C1 (counterexample): switching the active template does not reset the
visual composition. Starting from a fresh editor, deleting the
`cover-header` widget and recording a colour override for `title`, then
switching from `COVER` to `MEMO`, leaves both the hidden flag and the style
override in place, contradicting the claim that every override is discarded
on a template switch. -/
theorem template_switch_reset_cex :
    demoEditor.infoStyle = InfographicStyle.COVER
      ∧ (switchTemplate .MEMO
          (restyleElement "title" (.color "#EF4444")
            (deleteElement "cover-header" demoEditor))).infoStyle = InfographicStyle.MEMO
      ∧ demoEditor.hiddenFields "cover-header" = false
      ∧ (switchTemplate .MEMO
          (restyleElement "title" (.color "#EF4444")
            (deleteElement "cover-header" demoEditor))).hiddenFields "cover-header" = true
      ∧ ((switchTemplate .MEMO
          (restyleElement "title" (.color "#EF4444")
            (deleteElement "cover-header" demoEditor))).elementStyles "title").color
          = some "#EF4444" := by
  refine ⟨rfl, rfl, rfl, ?_, ?_⟩ <;> decide

/-- C1 (amended): switching the active template changes only which template
is active. Every hidden flag, per-element style override, image seed and
uploaded image survives the switch unchanged, so per-element overrides carry
over to the new template instead of resetting to template defaults; only the
widget-local drag positions are lost through remounting. -/
theorem template_switch_preserves_overrides (s : EditorState) (t : InfographicStyle) :
    (switchTemplate t s).infoStyle = t
      ∧ (switchTemplate t s).hiddenFields = s.hiddenFields
      ∧ (switchTemplate t s).elementStyles = s.elementStyles
      ∧ (switchTemplate t s).imageSeeds = s.imageSeeds
      ∧ (switchTemplate t s).customImages = s.customImages
      ∧ (∀ e v co, renderText (switchTemplate t s) e v co = renderText s e v co)
      ∧ (∀ k, getImageUrl (switchTemplate t s) k = getImageUrl s k) :=
  ⟨rfl, rfl, rfl, rfl, rfl, fun _ _ _ => rfl, fun _ => rfl⟩

/-- C2: in every state reachable from the initial state through the
controller's transitions, reaching `REVIEW_TEXT` implies the summary is
stored, and reaching `RESULT_EDITOR` implies both the summary and the source
metadata are stored; a step lacking its upstream data is unreachable. -/
theorem wizard_upstream_data_invariant (s : AppState) (h : Reachable s) :
    (s.step = .REVIEW_TEXT → s.summary ≠ none)
      ∧ (s.step = .RESULT_EDITOR → s.summary ≠ none ∧ s.metadata ≠ none) := by
  have hi := upstream_of_reachable h
  exact ⟨fun hs => (hi (Or.inl hs)).1, fun hs => hi (Or.inr (Or.inr hs))⟩

/-- C2 (witness): the review state reached by one successful submission is
reachable and carries a stored summary. -/
theorem wizard_upstream_data_invariant_witness :
    reviewState.step = AppStep.REVIEW_TEXT ∧ reviewState.summary ≠ none := by
  have hreach : Reachable reviewState :=
    Reachable.step Reachable.init
      (AppTransition.submit demoMeta ⟨0, 100⟩ "hello" (.ok demoSummary) rfl)
  exact ⟨rfl, (wizard_upstream_data_invariant reviewState hreach).1 rfl⟩

/-- C3 (counterexample): a gateway failure does not null the stored summary.
After a successful run reaches review, the back action returns to intake with
the summary still stored; a second submission whose gateway call throws then
returns to intake with the old summary still present, contradicting the
claim that the stored summary is null after every failed submission. -/
theorem gateway_failure_old_summary_cex :
    Reachable backAtIntakeState
      ∧ backAtIntakeState.step = AppStep.INPUT
      ∧ failedResubmitState.step = AppStep.INPUT
      ∧ failedResubmitState.summary = some demoSummary
      ∧ failedResubmitState.summary ≠ none := by
  refine ⟨?_, rfl, rfl, rfl, by decide⟩
  exact Reachable.step
    (Reachable.step Reachable.init
      (AppTransition.submit demoMeta ⟨0, 100⟩ "hello" (.ok demoSummary) rfl))
    (AppTransition.reviewGoBack rfl)

/-- C3 (amended): when the gateway call throws, the controller returns to the
intake step, an error message is shown, and the stored summary is unchanged
from before the submission — in particular no partial summary from the failed
call is stored, and the summary is null exactly when no earlier successful
summarization had stored one. -/
theorem gateway_failure_recovery (s : AppState) (meta : VideoMetadata) (trim : TrimRange)
    (transcript : String) :
    (handleInputComplete meta trim transcript .failure s).1.step = AppStep.INPUT
      ∧ (handleInputComplete meta trim transcript .failure s).1.summary = s.summary
      ∧ (handleInputComplete meta trim transcript .failure s).2.alerted = true := by
  simp only [handleInputComplete]
  by_cases htr : jsTrim transcript.toList = []
  · rw [if_pos htr]; exact ⟨rfl, rfl, rfl⟩
  · rw [if_neg htr]; exact ⟨rfl, rfl, rfl⟩

/-- C4 (counterexample): shuffle-images does not always change every slot's
resolved URL. From a fresh `VIDEO` editor with no uploaded overrides, a
shuffle whose five in-range draws happen to repeat the current seeds leaves
the whole editor state — hence every slot's resolved URL — unchanged. -/
theorem shuffle_images_seed_collision_cex :
    shuffleAllImages demoEditor.imageSeeds demoEditor = demoEditor
      ∧ getImageUrl (shuffleAllImages demoEditor.imageSeeds demoEditor) .hero
          = getImageUrl demoEditor .hero
      ∧ demoEditor.customImages .hero = none
      ∧ demoEditor.customImages .frame1 = none
      ∧ demoEditor.customImages .frame2 = none
      ∧ demoEditor.customImages .frame3 = none
      ∧ demoEditor.customImages .frame4 = none
      ∧ demoEditor.imageSeeds .hero < 5000
      ∧ demoEditor.imageSeeds .frame1 < 5000
      ∧ demoEditor.imageSeeds .frame2 < 5000
      ∧ demoEditor.imageSeeds .frame3 < 5000
      ∧ demoEditor.imageSeeds .frame4 < 5000 := by
  refine ⟨rfl, rfl, rfl, rfl, rfl, rfl, rfl, ?_, ?_, ?_, ?_, ?_⟩ <;> decide

/-- C4 (amended): shuffle-images gives every slot without an uploaded
override the placeholder of its fresh draw, so such a slot's resolved URL
changes whenever the draw differs from the current seed (a draw may repeat
the seed and leave the URL unchanged); an uploaded override is cleared by the
shuffle when the source kind is `IMAGES` and left untouched for every other
source kind. -/
theorem shuffle_images_policy (s : EditorState) (draws : SeedKey → Nat) (k : SeedKey) :
    (s.customImages k = none →
        getImageUrl (shuffleAllImages draws s) k = placeholderUrl (draws k))
      ∧ (s.customImages k = none → draws k ≠ s.imageSeeds k →
          getImageUrl (shuffleAllImages draws s) k ≠ getImageUrl s k)
      ∧ (s.metadata.sourceType = .IMAGES → (shuffleAllImages draws s).customImages k = none)
      ∧ (s.metadata.sourceType ≠ .IMAGES →
          (shuffleAllImages draws s).customImages k = s.customImages k) := by
  have key : s.customImages k = none →
      getImageUrl (shuffleAllImages draws s) k = placeholderUrl (draws k) := by
    intro hnone
    simp only [shuffleAllImages, getImageUrl]
    by_cases him : s.metadata.sourceType = .IMAGES
    · rw [if_pos him]
    · rw [if_neg him]
      simp only [hnone]
  refine ⟨key, ?_, ?_, ?_⟩
  · intro hnone hne h
    have h2 : getImageUrl s k = placeholderUrl (s.imageSeeds k) := by
      simp only [getImageUrl, hnone]
    rw [key hnone, h2] at h
    exact hne (placeholderUrl_inj h)
  · intro him
    simp only [shuffleAllImages]
    rw [if_pos him]
  · intro him
    simp only [shuffleAllImages]
    rw [if_neg him]

/-- C4 (witness): instances of the amended shuffle policy — a differing draw
changes the `hero` URL of the override-free `VIDEO` editor; the same shuffle
leaves the (absent) override untouched there; and on the `IMAGES` editor,
whose `hero` slot starts with the uploaded override `imgA`, the shuffle
clears the override. -/
theorem shuffle_images_policy_witness :
    getImageUrl (shuffleAllImages (fun _ => 7) demoEditor) .hero
        ≠ getImageUrl demoEditor .hero
      ∧ (shuffleAllImages (fun _ => 7) demoEditor).customImages .hero
        = demoEditor.customImages .hero
      ∧ demoEditorImages.customImages .hero = some "imgA"
      ∧ (shuffleAllImages (fun _ => 7) demoEditorImages).customImages .hero = none := by
  refine ⟨?_, ?_, rfl, ?_⟩
  · exact (shuffle_images_policy demoEditor (fun _ => 7) .hero).2.1 rfl (by decide)
  · exact (shuffle_images_policy demoEditor (fun _ => 7) .hero).2.2.2 (by decide)
  · exact (shuffle_images_policy demoEditorImages (fun _ => 7) .hero).2.2.1 rfl

/-- C5: the style panel routes an edit to exactly one target. While an
element is selected, a font-size, font-family or colour edit writes the
edited property into that element's override record (the record becomes the
old record with exactly that property overwritten) and touches nothing
else — the global font, text colour and highlight colour and every other
element's record are unchanged. While nothing is selected, the per-element
records are all unchanged and the edit goes to the matching global setting
(the font-size slider is not rendered then, and its action is a no-op). -/
theorem restyle_dual_target_routing (s : EditorState) (id : String) (e : PanelEdit) :
    (s.selectedElementId = some id → e.isHighlight = false →
        (applyPanelEdit e s).activeFont = s.activeFont
          ∧ (applyPanelEdit e s).textColor = s.textColor
          ∧ (applyPanelEdit e s).highlightColor = s.highlightColor
          ∧ (∀ j, j ≠ id → (applyPanelEdit e s).elementStyles j = s.elementStyles j)
          ∧ (applyPanelEdit e s).hiddenFields = s.hiddenFields
          ∧ (applyPanelEdit e s).localSummary = s.localSummary
          ∧ (∀ n, e = .fontSizeSlider n →
              (applyPanelEdit e s).elementStyles id
                = applyStyleProp (s.elementStyles id) (.fontSize n))
          ∧ (∀ f, e = .fontButton f →
              (applyPanelEdit e s).elementStyles id
                = applyStyleProp (s.elementStyles id) (.fontFamily f))
          ∧ (∀ c, e = .mainColor c →
              (applyPanelEdit e s).elementStyles id
                = applyStyleProp (s.elementStyles id) (.color c)))
      ∧ (s.selectedElementId = none →
          (applyPanelEdit e s).elementStyles = s.elementStyles
            ∧ (applyPanelEdit e s).hiddenFields = s.hiddenFields
            ∧ (applyPanelEdit e s).localSummary = s.localSummary
            ∧ (∀ f, e = .fontButton f → applyPanelEdit e s = setActiveFont f s)
            ∧ (∀ c, e = .mainColor c → applyPanelEdit e s = setTextColor c s)
            ∧ (∀ c, e = .highlightSwatch c → applyPanelEdit e s = setHighlightColor c s)
            ∧ (∀ n, e = .fontSizeSlider n → applyPanelEdit e s = s)) := by
  constructor
  · intro hsel hhl
    have hupd : ∀ p : StyleProp, updateElementStyle p s
        = { s with elementStyles := Function.update s.elementStyles id (applyStyleProp (s.elementStyles id) p) } := by
      intro p
      simp only [updateElementStyle, hsel]
    cases e with
    | fontSizeSlider n =>
        have hred : applyPanelEdit (.fontSizeSlider n) s = updateElementStyle (.fontSize n) s :=
          rfl
        rw [hred, hupd]
        refine ⟨rfl, rfl, rfl, fun j hj => Function.update_noteq hj _ _, rfl, rfl, ?_, ?_, ?_⟩
        · intro m hm
          cases hm
          exact Function.update_same _ _ _
        · intro g hg; cases hg
        · intro d hd; cases hd
    | fontButton f =>
        have hred : applyPanelEdit (.fontButton f) s = updateElementStyle (.fontFamily f) s := by
          simp only [applyPanelEdit, hsel]
        rw [hred, hupd]
        refine ⟨rfl, rfl, rfl, fun j hj => Function.update_noteq hj _ _, rfl, rfl, ?_, ?_, ?_⟩
        · intro m hm; cases hm
        · intro g hg
          cases hg
          exact Function.update_same _ _ _
        · intro d hd; cases hd
    | mainColor c =>
        have hred : applyPanelEdit (.mainColor c) s = updateElementStyle (.color c) s := by
          simp only [applyPanelEdit, hsel]
        rw [hred, hupd]
        refine ⟨rfl, rfl, rfl, fun j hj => Function.update_noteq hj _ _, rfl, rfl, ?_, ?_, ?_⟩
        · intro m hm; cases hm
        · intro g hg; cases hg
        · intro d hd
          cases hd
          exact Function.update_same _ _ _
    | highlightSwatch c =>
        simp [PanelEdit.isHighlight] at hhl
  · intro hsel
    have hupd : ∀ p : StyleProp, updateElementStyle p s = s := by
      intro p
      simp only [updateElementStyle, hsel]
    cases e with
    | fontSizeSlider n =>
        have hred : applyPanelEdit (.fontSizeSlider n) s = s := hupd (.fontSize n)
        rw [hred]
        refine ⟨rfl, rfl, rfl, ?_, ?_, ?_, ?_⟩ <;> intro x hx <;> first | rfl | cases hx
    | fontButton f =>
        have hred : applyPanelEdit (.fontButton f) s = setActiveFont f s := by
          simp only [applyPanelEdit, hsel]
        rw [hred]
        refine ⟨rfl, rfl, rfl, ?_, ?_, ?_, ?_⟩ <;> intro x hx <;>
          first | (cases hx; rfl) | cases hx
    | mainColor c =>
        have hred : applyPanelEdit (.mainColor c) s = setTextColor c s := by
          simp only [applyPanelEdit, hsel]
        rw [hred]
        refine ⟨rfl, rfl, rfl, ?_, ?_, ?_, ?_⟩ <;> intro x hx <;>
          first | (cases hx; rfl) | cases hx
    | highlightSwatch c =>
        have hred : applyPanelEdit (.highlightSwatch c) s = setHighlightColor c s := rfl
        rw [hred]
        refine ⟨rfl, rfl, rfl, ?_, ?_, ?_, ?_⟩ <;> intro x hx <;>
          first | (cases hx; rfl) | cases hx

/-- C5 (witness): a colour edit with `title` selected writes the colour into
the `title` override record while keeping the global text colour and the
`coreIdea` record; the same edit with nothing selected keeps all per-element
records. -/
theorem restyle_dual_target_routing_witness :
    ((applyPanelEdit (.mainColor "#000000") (selectElement "title" demoEditor)).elementStyles
        "title").color = some "#000000"
      ∧ (applyPanelEdit (.mainColor "#000000") (selectElement "title" demoEditor)).textColor
        = (selectElement "title" demoEditor).textColor
      ∧ (applyPanelEdit (.mainColor "#000000") (selectElement "title" demoEditor)).elementStyles
          "coreIdea" = (selectElement "title" demoEditor).elementStyles "coreIdea"
      ∧ (applyPanelEdit (.mainColor "#000000") demoEditor).elementStyles
        = demoEditor.elementStyles := by
  have h1 := (restyle_dual_target_routing (selectElement "title" demoEditor) "title"
    (.mainColor "#000000")).1 rfl rfl
  have h2 := (restyle_dual_target_routing demoEditor "title" (.mainColor "#000000")).2 rfl
  refine ⟨?_, h1.2.1, h1.2.2.2.1 "coreIdea" (by decide), h2.1⟩
  rw [h1.2.2.2.2.2.2.2.2 "#000000" rfl]
  rfl

/-- C6: once an element is deleted (hidden), any sequence of restyle
operations on it leaves the rendered output exactly as after the delete
alone: every text block and widget renders the same (the deleted one renders
to nothing), and every image slot resolves to the same URL — hidden
overrides all style. -/
theorem delete_then_restyle_noop {α : Type} (s : EditorState) (id : String)
    (ops : List StyleProp) (e v : String) (co : Option String) (wid : String)
    (content : α) (k : SeedKey) :
    renderText (applyRestyles id ops (deleteElement id s)) e v co
        = renderText (deleteElement id s) e v co
      ∧ renderText (applyRestyles id ops (deleteElement id s)) id v co = none
      ∧ renderWidget (applyRestyles id ops (deleteElement id s)) wid content
        = renderWidget (deleteElement id s) wid content
      ∧ renderWidget (applyRestyles id ops (deleteElement id s)) id content = (none : Option α)
      ∧ getImageUrl (applyRestyles id ops (deleteElement id s)) k
        = getImageUrl (deleteElement id s) k := by
  obtain ⟨hh, htc, haf, his, hci⟩ := applyRestyles_proj id ops (deleteElement id s)
  have hidden_id : (deleteElement id s).hiddenFields id = true := by
    simp [deleteElement, Function.update_same]
  refine ⟨?_, ?_, ?_, ?_, ?_⟩
  · by_cases he : e = id
    · subst he
      simp only [renderText, hh, hidden_id, if_true]
    · have hes := applyRestyles_elementStyles_ne he ops (deleteElement id s)
      simp only [renderText, hh, htc, haf, hes]
  · simp only [renderText, hh, hidden_id, if_true]
  · simp only [renderWidget, hh]
  · simp only [renderWidget, hh, hidden_id, if_true]
  · simp only [getImageUrl, hci, his]

/-- C7: refresh on a slot with an uploaded override removes exactly that
override and leaves every seed and every other override alone; refresh on a
slot without an override stores the fresh draw as that slot's seed and
leaves every override and every other seed alone. -/
theorem refresh_slot_semantics (s : EditorState) (k : SeedKey) (draw : Nat) :
    ((s.customImages k).isSome = true →
        (refreshImage k draw s).customImages k = none
          ∧ (∀ j, j ≠ k → (refreshImage k draw s).customImages j = s.customImages j)
          ∧ (refreshImage k draw s).imageSeeds = s.imageSeeds)
      ∧ (s.customImages k = none →
          (refreshImage k draw s).imageSeeds k = draw
            ∧ (∀ j, j ≠ k → (refreshImage k draw s).imageSeeds j = s.imageSeeds j)
            ∧ (refreshImage k draw s).customImages = s.customImages) := by
  constructor
  · intro hsome
    obtain ⟨u, hu⟩ := Option.isSome_iff_exists.mp hsome
    have hred : refreshImage k draw s
        = { s with customImages := Function.update s.customImages k none } := by
      simp only [refreshImage, hu]
    rw [hred]
    exact ⟨Function.update_same _ _ _, fun j hj => Function.update_noteq hj _ _, rfl⟩
  · intro hnone
    have hred : refreshImage k draw s
        = { s with imageSeeds := Function.update s.imageSeeds k draw } := by
      simp only [refreshImage, hnone]
    rw [hred]
    exact ⟨Function.update_same _ _ _, fun j hj => Function.update_noteq hj _ _, rfl⟩

/-- C7 (witness): refreshing `hero` on the `IMAGES` editor (which starts with
the uploaded override `imgA`) clears that override, keeps all seeds and keeps
`frame1`'s override state; refreshing `hero` on the override-free `VIDEO`
editor stores the draw `42` as the `hero` seed and keeps all overrides. -/
theorem refresh_slot_semantics_witness :
    (refreshImage .hero 42 demoEditorImages).customImages .hero = none
      ∧ (refreshImage .hero 42 demoEditorImages).imageSeeds = demoEditorImages.imageSeeds
      ∧ (refreshImage .hero 42 demoEditorImages).customImages .frame1
        = demoEditorImages.customImages .frame1
      ∧ (refreshImage .hero 42 demoEditor).imageSeeds .hero = 42
      ∧ (refreshImage .hero 42 demoEditor).customImages = demoEditor.customImages := by
  have h1 := (refresh_slot_semantics demoEditorImages .hero 42).1 rfl
  have h2 := (refresh_slot_semantics demoEditor .hero 42).2 rfl
  exact ⟨h1.1, h1.2.2, h1.2.1 .frame1 (by decide), h2.1, h2.2.2⟩

/-- C8 (counterexample): the response handler does not validate the parsed
shape. The response text `[]` is valid JSON but not the summary shape, yet
the call succeeds and returns it — not a gateway failure. -/
theorem gateway_shape_not_validated_cex :
    handleResponse (some ("[]".toList)) = .ok (.arr [])
      ∧ isSummaryShape (.arr []) = false :=
  ⟨rfl, rfl⟩

/-- C8 (amended): the handler first strips an incidental leading/trailing
```` ```json ```` fence after trimming, so a fenced response with a trimmed,
non-empty, unfenced body is handled exactly like the bare body; an empty (or
missing) response and a response whose stripped body is not valid JSON are
failures propagated to the caller; but no shape validation happens — whatever
value `JSON.parse` yields is returned as the summary. -/
theorem gateway_response_policy :
    (∀ j : List Char, trimLeft j = j → trimRight j = j → j ≠ [] →
        ("```".toList).isPrefixOf j = false →
        handleResponse (some (mkFenced j)) = handleResponse (some j))
      ∧ (∀ t : List Char, t ≠ [] → jsonParse (stripFence t) = none →
          handleResponse (some t) = .error .parseFailure)
      ∧ handleResponse (some []) = .error .emptyResponse
      ∧ handleResponse none = .error .emptyResponse
      ∧ (∀ (t : List Char) (v : JsonVal), t ≠ [] → jsonParse (stripFence t) = some v →
          handleResponse (some t) = .ok v) := by
  refine ⟨?_, ?_, rfl, rfl, ?_⟩
  · intro j hL hR hne hpre
    have hfne : mkFenced j ≠ [] := by rw [mkFenced_eq]; simp
    simp only [handleResponse]
    rw [if_neg hfne, if_neg hne, stripFence_mkFenced j hL hR hne,
      stripFence_unfenced j hL hR hpre]
  · intro t htne hparse
    simp only [handleResponse]
    rw [if_neg htne, hparse]
  · intro t v htne hparse
    simp only [handleResponse]
    rw [if_neg htne, hparse]

/-- C8 (witness): the fenced body `[1]` is handled like the bare body; the
non-JSON body `x` is a parse failure; the bare body `[1]` succeeds. -/
theorem gateway_response_policy_witness :
    handleResponse (some (mkFenced ("[1]".toList))) = handleResponse (some ("[1]".toList))
      ∧ handleResponse (some ("x".toList)) = .error .parseFailure
      ∧ handleResponse (some ("[1]".toList)) = .ok (.arr [.num ['1']]) := by
  refine ⟨?_, ?_, ?_⟩
  · exact gateway_response_policy.1 ("[1]".toList) rfl rfl (by decide) rfl
  · exact gateway_response_policy.2.1 ("x".toList) (by decide) rfl
  · exact gateway_response_policy.2.2.2.2 ("[1]".toList) (.arr [.num ['1']]) (by decide) rfl

/-- C9: a `SEARCH` intake with no selected result rejects submission
regardless of the query text: the validation returns early with an alert, the
submit button is disabled, and the wizard state is completely unchanged. -/
theorem search_empty_selection_rejected (inp : InputState) (outcome : GatewayOutcome)
    (s : AppState) (h1 : inp.activeTab = .SEARCH) (h2 : inp.selectedResultIds = []) :
    handleSubmit inp = none
      ∧ submitDisabled inp = true
      ∧ inputStepSubmit inp outcome s = (s, { alerted := true, gatewayCalled := false }) := by
  have hs : handleSubmit inp = none := by
    simp [handleSubmit, h1, h2]
  refine ⟨hs, ?_, ?_⟩
  · simp [submitDisabled, h1, h2]
  · simp only [inputStepSubmit, hs]

/-- C9 (witness): a concrete `SEARCH` intake with a non-empty query and no
selection is rejected with no state change. -/
theorem search_empty_selection_rejected_witness :
    handleSubmit { activeTab := .SEARCH, searchQuery := "news" } = none
      ∧ submitDisabled { activeTab := .SEARCH, searchQuery := "news" } = true
      ∧ inputStepSubmit { activeTab := .SEARCH, searchQuery := "news" } .failure
          initialAppState = (initialAppState, { alerted := true, gatewayCalled := false }) :=
  search_empty_selection_rejected { activeTab := .SEARCH, searchQuery := "news" }
    .failure initialAppState rfl rfl

/-- C10: an `IMAGES` submission with at least one image and an empty caption
passes intake validation with an empty transcript; the controller then throws
`"No content provided"` before any gateway call and returns to intake — so
passing intake validation does not guarantee a gateway call, and an
images-only `IMAGES` submission never reaches review. -/
theorem images_only_submission_no_gateway (inp : InputState) (outcome : GatewayOutcome)
    (s : AppState) (h1 : inp.activeTab = .IMAGES) (h2 : inp.imageUrls ≠ [])
    (h3 : inp.imageContext = "") :
    handleSubmit inp
        = some ({ sourceType := .IMAGES, title := "图文创作项目",
                  uploadedImages := some inp.imageUrls }, ⟨0, 100⟩, "")
      ∧ (inputStepSubmit inp outcome s).1.step = AppStep.INPUT
      ∧ (inputStepSubmit inp outcome s).2.gatewayCalled = false
      ∧ (inputStepSubmit inp outcome s).2.alerted = true
      ∧ (inputStepSubmit inp outcome s).1.summary = s.summary
      ∧ (inputStepSubmit inp outcome s).1.step ≠ AppStep.REVIEW_TEXT := by
  have hs : handleSubmit inp
      = some ({ sourceType := .IMAGES, title := "图文创作项目",
                uploadedImages := some inp.imageUrls }, ⟨0, 100⟩, "") := by
    simp only [handleSubmit, h1, h3]
    rw [if_neg]
    intro hand
    exact h2 hand.1
  have hrest : inputStepSubmit inp outcome s
      = handleInputComplete { sourceType := .IMAGES, title := "图文创作项目",
                              uploadedImages := some inp.imageUrls } ⟨0, 100⟩ "" outcome s := by
    simp only [inputStepSubmit, hs]
  rw [hrest]
  simp only [handleInputComplete]
  have hempty : jsTrim "".toList = [] := rfl
  rw [if_pos hempty]
  exact ⟨hs, rfl, rfl, rfl, rfl, by simp⟩

/-- C10 (witness): the concrete images-only submission `[imgA]` with empty
caption passes validation with an empty transcript and bounces back to
intake without a gateway call, even when the gateway would have succeeded. -/
theorem images_only_submission_no_gateway_witness :
    handleSubmit { activeTab := .IMAGES, imageUrls := ["imgA"] }
        = some ({ sourceType := .IMAGES, title := "图文创作项目",
                  uploadedImages := some ["imgA"] }, ⟨0, 100⟩, "")
      ∧ (inputStepSubmit { activeTab := .IMAGES, imageUrls := ["imgA"] }
          (.ok demoSummary) initialAppState).1.step = AppStep.INPUT
      ∧ (inputStepSubmit { activeTab := .IMAGES, imageUrls := ["imgA"] }
          (.ok demoSummary) initialAppState).2.gatewayCalled = false := by
  have h := images_only_submission_no_gateway { activeTab := .IMAGES, imageUrls := ["imgA"] }
    (.ok demoSummary) initialAppState rfl (by decide) rfl
  exact ⟨h.1, h.2.1, h.2.2.1⟩

end ClipEssence
